import Mathlib

/-!
Shallow embedding of `json-relaxed` (`src/lib.rs`): the `Maybe<T>` result
carrier with its combinators, and the `MaybeValue` coercion accessors over
`serde_json::Value`.

Modelling conventions:
* `serde_json::Value` is the inductive `Value`; its `Number` payload is the
  three-constructor enum `N` mirroring serde_json's `N { PosInt(u64),
  NegInt(i64), Float(f64) }`, with `u64` as `Nat`, `i64` as `Int`, and a
  finite `f64` as the exact rational it denotes (every finite `f64` is a
  rational; JSON parsing cannot produce NaN or infinity).
* Rust integer casts are modelled with explicit `% 2^64` arithmetic;
  the Rust float-to-int `as` cast truncates toward zero and saturates at
  the target range (Rust reference semantics since 1.45).
* A Rust `panic` (the `.expect(..)` calls in `maybe_bool` / `maybe_int`)
  is modelled by the `none` case of an `Option` result: those accessors
  return `Option (Maybe _)`, where `none` means the expect fired.
* The generic element type of `maybe_array` / `maybe_object` is a type
  parameter `T` together with an explicit conversion function
  `conv : Value → Except FromJsonError T` standing for `T::try_from_json`.
-/

namespace JsonRelaxed

/-- The error carrier `FromJsonError { msg: String }`. -/
structure FromJsonError where
  msg : String
deriving DecidableEq, Repr

/-- `FromJsonError::with_message`. -/
def FromJsonError.with_message (message : String) : FromJsonError :=
  ⟨message⟩

/-- `FromJsonError::unexpected`. -/
def FromJsonError.unexpected : FromJsonError :=
  ⟨"unexpected error"⟩

/-- The four-state result carrier `Maybe<T>`. -/
inductive Maybe (T : Type) where
  | Null : Maybe T
  | Strict (v : T) : Maybe T
  | Relaxed (v : T) : Maybe T
  | Error (e : FromJsonError) : Maybe T
deriving DecidableEq, Repr

/-- `Maybe::strict`. -/
def Maybe.strict {T : Type} : Maybe T → Option T
  | .Strict v => some v
  | _ => none

/-- `Maybe::strict_ok`. -/
def Maybe.strict_ok {T : Type} : Maybe T → Except FromJsonError T
  | .Strict v => .ok v
  | .Error e => .error e
  | _ => .error (FromJsonError.with_message "no strict value")

/-- `Maybe::relaxed`; Rust's `T: Default` bound is modelled by `Inhabited`
(whose `default` agrees with Rust's `Default` for `Bool`, `Int`, `Nat`,
`String` and lists). -/
def Maybe.relaxed {T : Type} [Inhabited T] : Maybe T → T
  | .Null => default
  | .Error _ => default
  | .Strict v => v
  | .Relaxed v => v

/-- `Maybe::default` (the `impl Into<T>` argument is taken already converted). -/
def Maybe.default {T : Type} (m : Maybe T) (dflt : T) : T :=
  match m with
  | .Null => dflt
  | .Error _ => dflt
  | .Strict v => v
  | .Relaxed v => v

/-- `Maybe::default_for_null`. -/
def Maybe.default_for_null {T : Type} (m : Maybe T) (dflt : T) : Option T :=
  match m with
  | .Strict v => some v
  | .Null => some dflt
  | _ => none

/-- serde_json's private number representation
`N { PosInt(u64), NegInt(i64), Float(f64) }`. -/
inductive N where
  | posInt (u : Nat) : N
  | negInt (i : Int) : N
  | float (f : ℚ) : N
deriving DecidableEq, Repr

/-- `i64::MAX`. -/
def i64Max : Int := 2 ^ 63 - 1

/-- `i64::MIN`. -/
def i64Min : Int := -(2 ^ 63)

/-- The Rust cast `u64 as i64`: two's-complement reinterpretation. -/
def u64_as_i64 (n : Nat) : Int :=
  let m : Nat := n % 2 ^ 64
  if (m : Int) ≤ i64Max then (m : Int) else (m : Int) - 2 ^ 64

/-- The Rust cast `i64 as u64`: two's-complement reinterpretation. -/
def i64_as_u64 (n : Int) : Nat :=
  (n % (2 ^ 64 : Int)).toNat

/-- Truncation toward zero of a rational: floor for non-negative values,
ceiling for negative ones. -/
def truncRat (q : ℚ) : Int :=
  if 0 ≤ q then Rat.floor q else Rat.ceil q

/-- The Rust cast `f64 as i64` on a finite float: truncate toward zero,
saturating at the `i64` range (Rust reference semantics). -/
def f64_as_i64 (q : ℚ) : Int :=
  let t := truncRat q
  if t < i64Min then i64Min else if i64Max < t then i64Max else t

/-- `serde_json::Number::is_i64`. -/
def N.is_i64 : N → Bool
  | .posInt v => decide ((v : Int) ≤ i64Max)
  | .negInt _ => true
  | .float _ => false

/-- `serde_json::Number::is_u64`. -/
def N.is_u64 : N → Bool
  | .posInt _ => true
  | _ => false

/-- `serde_json::Number::is_f64`. -/
def N.is_f64 : N → Bool
  | .float _ => true
  | _ => false

/-- `serde_json::Number::as_i64`. -/
def N.as_i64 : N → Option Int
  | .posInt v => if (v : Int) ≤ i64Max then some ((v : Int)) else none
  | .negInt i => some i
  | .float _ => none

/-- `serde_json::Number::as_u64`. -/
def N.as_u64 : N → Option Nat
  | .posInt v => some v
  | _ => none

/-- `serde_json::Number::as_f64`. For integer payloads serde_json rounds to
the nearest `f64`; that rounding is not modelled because in this crate
`as_f64` is only consumed behind an `is_f64` guard, i.e. on `float`. -/
def N.as_f64 : N → Option ℚ
  | .posInt v => some ((v : ℚ))
  | .negInt i => some ((i : ℚ))
  | .float f => some f

/-- serde_json's `Value` tree. The map keeps its entries as an ordered
association list; lookup takes the first matching key (concrete documents
in this file have distinct keys, so this agrees with the `BTreeMap`). -/
inductive Value where
  | null : Value
  | bool (b : Bool) : Value
  | number (n : N) : Value
  | str (s : String) : Value
  | arr (elts : List Value) : Value
  | obj (entries : List (String × Value)) : Value

/-- The key selector: serde_json's `Index` is either a string (map key)
or a `usize` (list index). -/
inductive Key where
  | str (s : String) : Key
  | idx (i : Nat) : Key

/-- First-match lookup in the entry list of an object. -/
def lookupEntries : List (String × Value) → String → Option Value
  | [], _ => none
  | (k, v) :: rest, s => if k = s then some v else lookupEntries rest s

/-- `Value::get`: a string key indexes objects, a numeric index indexes
arrays; any other combination yields `None` (serde_json `Index` impls). -/
def Value.get (v : Value) (k : Key) : Option Value :=
  match v, k with
  | .obj es, .str s => lookupEntries es s
  | .arr a, .idx i => a.get? i
  | _, _ => none

/-- `i64::from_str` (`s.parse::<i64>()`): optional single `+`/`-` sign,
one or more ASCII digits, value within the `i64` range. -/
def parse_i64 (s : String) : Option Int :=
  let core : List Char → Int → Option Int := fun digs sign =>
    if digs = [] then none
    else if digs.all Char.isDigit then
      let v : Nat := digs.foldl (fun a c => a * 10 + (c.toNat - 48)) 0
      let n : Int := sign * (v : Int)
      if i64Min ≤ n ∧ n ≤ i64Max then some n else none
    else none
  match s.toList with
  | '+' :: rest => core rest 1
  | '-' :: rest => core rest (-1)
  | l => core l 1

/-- Rust `str::to_lowercase`, character-wise. Rust lowercases per Unicode
and `Char.toLower` only per ASCII; the two agree on every character that
can occur in a string whose lowercase form is compared against `"false"`,
which is the only use in this crate. -/
def to_lowercase (s : String) : String :=
  ⟨s.data.map Char.toLower⟩

/-- `bool::to_string`. -/
def bool_to_string (b : Bool) : String :=
  if b then "true" else "false"

/-- `Number::to_string`. The `float` branch (ryu shortest-representation
formatting) is not modelled exactly; no claim consumes it. -/
def num_to_string : N → String
  | .posInt u => toString u
  | .negInt i => toString i
  | .float f => toString f

/-- `maybe_string` (lines 189–203 of `lib.rs`). -/
def maybe_string (v : Value) (k : Key) : Maybe String :=
  match v.get k with
  | some .null => .Null
  | some (.bool b) => .Relaxed (bool_to_string b)
  | some (.number n) => .Relaxed (num_to_string n)
  | some (.str s) => .Strict s
  | some (.arr _) => .Error (FromJsonError.with_message "type mismatch: array")
  | some (.obj _) => .Error (FromJsonError.with_message "type mismatch: object")
  | none => .Null

/-- `maybe_bool` (lines 204–226). The `Option` wrapper models the
`.expect("checked above")` calls: `none` means an expect fired. -/
def maybe_bool (v : Value) (k : Key) : Option (Maybe Bool) :=
  match v.get k with
  | some .null => some .Null
  | some (.bool b) => some (.Strict b)
  | some (.number n) =>
      if n.is_i64 then n.as_i64.map (fun i => Maybe.Relaxed (i != 0))
      else if n.is_u64 then n.as_u64.map (fun u => Maybe.Relaxed (decide (0 < u)))
      else if n.is_f64 then n.as_f64.map (fun q => Maybe.Relaxed (q != 0))
      else some (.Error FromJsonError.unexpected)
  | some (.str s) =>
      some (.Relaxed (s != "" && s != "0" && to_lowercase s != "false"))
  | some (.arr _) => some (.Error (FromJsonError.with_message "type mismatch: array"))
  | some (.obj _) => some (.Error (FromJsonError.with_message "type mismatch: object"))
  | none => some .Null

/-- `maybe_int` (lines 238–269). The `Option` wrapper models the
`.expect("checked above")` calls: `none` means an expect fired. -/
def maybe_int (v : Value) (k : Key) : Option (Maybe Int) :=
  match v.get k with
  | some .null => some .Null
  | some (.bool b) =>
      match b with
      | true => some (.Relaxed 1)
      | false => some (.Relaxed 0)
  | some (.number n) =>
      if n.is_i64 then n.as_i64.map Maybe.Strict
      else if n.is_u64 then n.as_u64.map (fun u => Maybe.Strict (u64_as_i64 u))
      else if n.is_f64 then n.as_f64.map (fun q => Maybe.Relaxed (f64_as_i64 q))
      else some (.Error FromJsonError.unexpected)
  | some (.str s) =>
      match parse_i64 s with
      | some i => some (.Relaxed i)
      | none => some (.Error (FromJsonError.with_message "parseIntError"))
  | some (.arr _) => some (.Error (FromJsonError.with_message "type mismatch: array"))
  | some (.obj _) => some (.Error (FromJsonError.with_message "type mismatch: object"))
  | none => some .Null

/-- `maybe_uint` (lines 229–236): match on `maybe_int`, reinterpret the
held value with `as u64`, keep the tag. A panic in `maybe_int` propagates. -/
def maybe_uint (v : Value) (k : Key) : Option (Maybe Nat) :=
  match maybe_int v k with
  | some (.Strict n) => some (.Strict (i64_as_u64 n))
  | some (.Relaxed n) => some (.Relaxed (i64_as_u64 n))
  | some (.Error e) => some (.Error e)
  | some .Null => some .Null
  | none => none

/-- `maybe_object` (lines 133–148); `conv` stands for `T::try_from_json`. -/
def maybe_object {T : Type} (conv : Value → Except FromJsonError T)
    (v : Value) (k : Key) : Maybe T :=
  match v.get k with
  | some w =>
      match conv w with
      | .ok tv => .Strict tv
      | .error e => .Error e
  | none => .Null

/-- The element loop of `maybe_array` (lines 157–166): successes are pushed
in order into `collect`, any failure clears the `clean` flag. -/
def collect_loop {T : Type} (conv : Value → Except FromJsonError T) :
    List Value → List T × Bool
  | [] => ([], true)
  | x :: rest =>
      match conv x, collect_loop conv rest with
      | .ok v, (tail, clean) => (v :: tail, clean)
      | .error _, (tail, _) => (tail, false)

/-- `maybe_array` (lines 151–187). -/
def maybe_array {T : Type} (conv : Value → Except FromJsonError T)
    (v : Value) (k : Key) : Maybe (List T) :=
  match v.get k with
  | some (.arr a) =>
      match collect_loop conv a with
      | (collect, true) => .Strict collect
      | (collect, false) => .Relaxed collect
  | some w =>
      match conv w with
      | .ok t => .Relaxed [t]
      | .error e => .Error e
  | none => .Null

/-! Concrete conversion functions and documents used as witnesses. -/

/-- A concrete `TryFromJson` implementation: succeeds exactly on
non-negative integer number nodes. -/
def convPos : Value → Except FromJsonError Int
  | .number (.posInt u) => .ok ((u : Int))
  | _ => .error (FromJsonError.with_message "not a positive integer node")

/-- A concrete `TryFromJson` implementation that accepts every node. -/
def convAny : Value → Except FromJsonError Int
  | _ => .ok 0

/-- The document `{"foo": 23, "bar": "42"}` from the crate's test. -/
def docBasic : Value :=
  .obj [("foo", .number (.posInt 23)), ("bar", .str "42")]

/-- The document `{"flag": "off"}`. -/
def docFlag : Value :=
  .obj [("flag", .str "off")]

/-- The document `{"list": [1, "x", 3]}`. -/
def docList : Value :=
  .obj [("list", .arr [.number (.posInt 1), .str "x", .number (.posInt 3)])]

/-- The document `{"k": null}`: the key exists and is explicitly null. -/
def docNullEntry : Value :=
  .obj [("k", .null)]

/-- The document `{"k": []}`. -/
def docEmptyList : Value :=
  .obj [("k", .arr [])]

/-- The document `{"list": ["x"]}`: one element, not convertible by `convPos`. -/
def docFailList : Value :=
  .obj [("list", .arr [.str "x"])]

/-- The document `{"x": 18446744073709551616.0}`: the float `2^64`, exactly
representable as an `f64`, outside the `i64` range. -/
def docBigFloat : Value :=
  .obj [("x", .number (.float ((2 : ℚ) ^ 64)))]

/-- The document `{"x": 2.5}` (`5/2` is exactly representable as an `f64`). -/
def docHalf : Value :=
  .obj [("x", .number (.float (mkRat 5 2)))]

/-- Spec-side tag-preserving value map on `Maybe`, used to state the
refinement between `maybe_uint` and `maybe_int`. -/
def Maybe.map_val {α β : Type} (f : α → β) : Maybe α → Maybe β
  | .Null => .Null
  | .Strict v => .Strict (f v)
  | .Relaxed v => .Relaxed (f v)
  | .Error e => .Error e

/-! Helper lemmas. -/

/-- The element loop collects exactly the successful conversions, in order,
and is clean exactly when every element converts. -/
theorem collect_loop_eq {T : Type} (conv : Value → Except FromJsonError T)
    (a : List Value) :
    collect_loop conv a =
      (a.filterMap (fun x => (conv x).toOption), a.all (fun x => (conv x).isOk)) := by
  induction a with
  | nil => rfl
  | cons x rest ih =>
      cases h : conv x <;>
        simp [collect_loop, h, ih, Except.toOption, Except.isOk, Except.toBool]

/-! The claims. -/

/-- C7: `default_for_null(fallback)` yields `some v` on `Strict v`,
`some fallback` on `Null`, and `none` on `Relaxed` and `Error` — although
`relaxed()` and `default(fallback)` do return the held value of a
`Relaxed`. -/
theorem default_for_null_spec {T : Type} [Inhabited T] (dflt : T) :
    (∀ v : T, (Maybe.Strict v).default_for_null dflt = some v) ∧
    ((Maybe.Null : Maybe T).default_for_null dflt = some dflt) ∧
    (∀ v : T, (Maybe.Relaxed v).default_for_null dflt = none) ∧
    (∀ e : FromJsonError, (Maybe.Error e : Maybe T).default_for_null dflt = none) ∧
    (∀ v : T, (Maybe.Relaxed v).relaxed = v ∧ (Maybe.Relaxed v).default dflt = v) :=
  ⟨fun _ => rfl, rfl, fun _ => rfl, fun _ => rfl, fun _ => ⟨rfl, rfl⟩⟩

/-- Witness for C7 at `T = Int`, fallback `5`, held value `7`. -/
theorem default_for_null_spec_witness :
    (Maybe.Strict (7 : Int)).default_for_null 5 = some 7 ∧
    (Maybe.Null : Maybe Int).default_for_null 5 = some 5 ∧
    (Maybe.Relaxed (7 : Int)).default_for_null 5 = none ∧
    (Maybe.Relaxed (7 : Int)).relaxed = 7 :=
  ⟨(default_for_null_spec 5).1 7, (default_for_null_spec 5).2.1,
   (default_for_null_spec 5).2.2.1 7, ((default_for_null_spec 5).2.2.2.2 7).1⟩

/-- C10: `maybe_object` never returns `Relaxed`; it returns `Null` exactly
on an absent key, and otherwise `Strict` (conversion succeeded) or `Error`
(conversion failed). -/
theorem maybe_object_never_relaxed {T : Type} (conv : Value → Except FromJsonError T)
    (v : Value) (k : Key) :
    (maybe_object conv v k = Maybe.Null ↔ v.get k = none) ∧
    ((maybe_object conv v k = Maybe.Null) ∨
      (∃ t, maybe_object conv v k = Maybe.Strict t) ∨
      (∃ e, maybe_object conv v k = Maybe.Error e)) ∧
    (∀ t, maybe_object conv v k ≠ Maybe.Relaxed t) := by
  cases hg : v.get k with
  | none => simp [maybe_object, hg]
  | some w => cases hc : conv w <;> simp [maybe_object, hg, hc]

/-- Witness for C10 (no hypotheses; instantiation at a concrete document). -/
theorem maybe_object_never_relaxed_witness :
    maybe_object convPos docBasic (Key.str "foo") = Maybe.Strict 23 ∧
    (∀ t, maybe_object convPos docBasic (Key.str "foo") ≠ Maybe.Relaxed t) :=
  ⟨rfl, (maybe_object_never_relaxed convPos docBasic (Key.str "foo")).2.2⟩

/-- C3: `maybe_uint` equals `maybe_int` with the held `i64` value
reinterpreted bitwise as a `u64` (`i64 as u64`), the
`Strict`/`Relaxed`/`Error`/`Null` tag unchanged (and a panic, were one
possible, propagated). -/
theorem maybe_uint_refines_maybe_int (v : Value) (k : Key) :
    maybe_uint v k = (maybe_int v k).map (Maybe.map_val i64_as_u64) := by
  unfold maybe_uint
  cases maybe_int v k with
  | none => rfl
  | some m => cases m <;> rfl

/-- Witness for C3 at the document `{"foo": 23, "bar": "42"}`. -/
theorem maybe_uint_refines_maybe_int_witness :
    maybe_uint docBasic (Key.str "foo") =
      (maybe_int docBasic (Key.str "foo")).map (Maybe.map_val i64_as_u64) ∧
    maybe_uint docBasic (Key.str "foo") = some (Maybe.Strict 23) :=
  ⟨maybe_uint_refines_maybe_int docBasic (Key.str "foo"), rfl⟩

/-- C6: an absent key (the lookup returns nothing) makes every accessor —
`maybe_bool`, `maybe_int`, `maybe_uint`, `maybe_string`, `maybe_array`,
`maybe_object` — return `Null`, independent of the target type. -/
theorem absent_key_yields_null {T : Type} (conv : Value → Except FromJsonError T)
    (v : Value) (k : Key) (h : v.get k = none) :
    maybe_bool v k = some Maybe.Null ∧
    maybe_int v k = some Maybe.Null ∧
    maybe_uint v k = some Maybe.Null ∧
    maybe_string v k = Maybe.Null ∧
    maybe_array conv v k = Maybe.Null ∧
    maybe_object conv v k = Maybe.Null := by
  refine ⟨?_, ?_, ?_, ?_, ?_, ?_⟩ <;>
    simp [maybe_bool, maybe_int, maybe_uint, maybe_string, maybe_array,
      maybe_object, h]

/-- Witness for C6: the key `"missing"` in `{"foo": 23, "bar": "42"}`. -/
theorem absent_key_yields_null_witness :
    docBasic.get (Key.str "missing") = none ∧
    maybe_int docBasic (Key.str "missing") = some Maybe.Null ∧
    maybe_array convPos docBasic (Key.str "missing") = Maybe.Null ∧
    maybe_object convPos docBasic (Key.str "missing") = Maybe.Null :=
  ⟨rfl,
   (absent_key_yields_null convPos docBasic (Key.str "missing") rfl).2.1,
   (absent_key_yields_null convPos docBasic (Key.str "missing") rfl).2.2.2.2.1,
   (absent_key_yields_null convPos docBasic (Key.str "missing") rfl).2.2.2.2.2⟩

/-- C2 counterexample: in `{"k": null}` the key `"k"` exists and is the
explicit null node, yet `maybe_object` (with a conversion that accepts
every node) returns `Strict 0`, not `Null` — the claim fails for the
compound accessors. -/
theorem null_node_counterexample :
    docNullEntry.get (Key.str "k") = some Value.null ∧
    maybe_object convAny docNullEntry (Key.str "k") = Maybe.Strict 0 ∧
    maybe_object convAny docNullEntry (Key.str "k") ≠ Maybe.Null := by
  refine ⟨rfl, rfl, ?_⟩
  intro hc
  exact Maybe.noConfusion ((rfl : maybe_object convAny docNullEntry (Key.str "k") = Maybe.Strict 0).symm.trans hc)

/-- C2 amended: the primitive accessors `maybe_bool`, `maybe_int`,
`maybe_uint` and `maybe_string` return `Null` on an explicit null node;
`maybe_array` and `maybe_object` instead hand the null node to the
conversion protocol. -/
theorem null_node_primitive_accessors (v : Value) (k : Key)
    (h : v.get k = some Value.null) :
    maybe_bool v k = some Maybe.Null ∧
    maybe_int v k = some Maybe.Null ∧
    maybe_uint v k = some Maybe.Null ∧
    maybe_string v k = Maybe.Null := by
  refine ⟨?_, ?_, ?_, ?_⟩ <;>
    simp [maybe_bool, maybe_int, maybe_uint, maybe_string, h]

/-- Witness for the amended C2 at `{"k": null}`. -/
theorem null_node_primitive_accessors_witness :
    maybe_int docNullEntry (Key.str "k") = some Maybe.Null ∧
    maybe_string docNullEntry (Key.str "k") = Maybe.Null :=
  ⟨(null_node_primitive_accessors docNullEntry (Key.str "k") rfl).2.1,
   (null_node_primitive_accessors docNullEntry (Key.str "k") rfl).2.2.2⟩

/-- C8: the primitive accessors are total — the `expect("checked above")`
branches (modelled by the `none` result) never fire, for any document node
and key; consequently every input yields one of `Null`, `Strict`,
`Relaxed`, `Error`. `maybe_string` contains no expect and is total by
construction. -/
theorem primitive_accessors_total (v : Value) (k : Key) :
    (maybe_bool v k).isSome ∧ (maybe_int v k).isSome ∧ (maybe_uint v k).isSome := by
  have hbool : (maybe_bool v k).isSome := by
    unfold maybe_bool
    cases v.get k with
    | none => rfl
    | some w =>
      cases w with
      | null => rfl
      | bool b => rfl
      | number n =>
        cases n with
        | posInt u =>
          by_cases h : (u : Int) ≤ i64Max <;>
            simp [N.is_i64, N.is_u64, N.is_f64, N.as_i64, N.as_u64, h]
        | negInt i => simp [N.is_i64, N.as_i64]
        | float f => simp [N.is_i64, N.is_u64, N.is_f64, N.as_f64]
      | str s => rfl
      | arr a => rfl
      | obj o => rfl
  have hint : (maybe_int v k).isSome := by
    unfold maybe_int
    cases v.get k with
    | none => rfl
    | some w =>
      cases w with
      | null => rfl
      | bool b => cases b <;> rfl
      | number n =>
        cases n with
        | posInt u =>
          by_cases h : (u : Int) ≤ i64Max <;>
            simp [N.is_i64, N.is_u64, N.is_f64, N.as_i64, N.as_u64, h]
        | negInt i => simp [N.is_i64, N.as_i64]
        | float f => simp [N.is_i64, N.is_u64, N.is_f64, N.as_f64]
      | str s => cases hp : parse_i64 s <;> simp [hp]
      | arr a => rfl
      | obj o => rfl
  refine ⟨hbool, hint, ?_⟩
  unfold maybe_uint
  cases hi : maybe_int v k with
  | none => rw [hi] at hint; exact absurd hint (by simp)
  | some m => cases m <;> rfl

/-- Witness for C8 at a large-float document, where the float dispatch
branch of `maybe_int` is exercised. -/
theorem primitive_accessors_total_witness :
    (maybe_bool docBigFloat (Key.str "x")).isSome ∧
    (maybe_int docBigFloat (Key.str "x")).isSome ∧
    (maybe_uint docBigFloat (Key.str "x")).isSome :=
  primitive_accessors_total docBigFloat (Key.str "x")

/-- Helper: on a list node, `maybe_array` is `Strict` of the successful
conversions when all succeed and `Relaxed` of them otherwise. -/
theorem maybe_array_arr_eq {T : Type} (conv : Value → Except FromJsonError T)
    (v : Value) (k : Key) (a : List Value) (hw : v.get k = some (Value.arr a)) :
    maybe_array conv v k =
      if a.all (fun x => (conv x).isOk) then
        Maybe.Strict (a.filterMap fun x => (conv x).toOption)
      else
        Maybe.Relaxed (a.filterMap fun x => (conv x).toOption) := by
  cases hA : a.all (fun x => (conv x).isOk) <;>
    simp [maybe_array, hw, collect_loop_eq, hA]

/-- Helper: on a present non-list node whose conversion succeeds,
`maybe_array` is the `Relaxed` singleton. -/
theorem maybe_array_not_arr_ok {T : Type} (conv : Value → Except FromJsonError T)
    (v : Value) (k : Key) (w : Value) (t : T) (hw : v.get k = some w)
    (hnotarr : ∀ a, w ≠ Value.arr a) (ht : conv w = Except.ok t) :
    maybe_array conv v k = Maybe.Relaxed [t] := by
  cases w <;> first
    | exact absurd rfl (hnotarr _)
    | simp [maybe_array, hw, ht]

/-- Helper: on a present non-list node whose conversion fails,
`maybe_array` propagates the failure as `Error`. -/
theorem maybe_array_not_arr_err {T : Type} (conv : Value → Except FromJsonError T)
    (v : Value) (k : Key) (w : Value) (e : FromJsonError) (hw : v.get k = some w)
    (hnotarr : ∀ a, w ≠ Value.arr a) (he : conv w = Except.error e) :
    maybe_array conv v k = Maybe.Error e := by
  cases w <;> first
    | exact absurd rfl (hnotarr _)
    | simp [maybe_array, hw, he]

/-- C1: on a list node, `maybe_array` returns `Strict` of all converted
elements when every element converts, and `Relaxed` of exactly the
successful conversions, in their original order, when at least one fails;
on a present non-list node it returns the `Relaxed` one-element vector when
the single conversion succeeds and `Error` when it fails. -/
theorem maybe_array_spec {T : Type} (conv : Value → Except FromJsonError T)
    (v : Value) (k : Key) :
    (∀ a, v.get k = some (Value.arr a) →
      ((∀ x ∈ a, (conv x).isOk) →
        maybe_array conv v k = Maybe.Strict (a.filterMap fun x => (conv x).toOption)) ∧
      ((∃ x ∈ a, ¬ (conv x).isOk) →
        maybe_array conv v k = Maybe.Relaxed (a.filterMap fun x => (conv x).toOption))) ∧
    (∀ w, v.get k = some w → (∀ a, w ≠ Value.arr a) →
      (∀ t, conv w = Except.ok t → maybe_array conv v k = Maybe.Relaxed [t]) ∧
      (∀ e, conv w = Except.error e → maybe_array conv v k = Maybe.Error e)) := by
  constructor
  · intro a ha
    constructor
    · intro hall
      have hA : (a.all fun x => (conv x).isOk) = true := List.all_eq_true.mpr hall
      rw [maybe_array_arr_eq conv v k a ha, hA, if_pos rfl]
    · rintro ⟨x, hx, hfail⟩
      have hA : (a.all fun x => (conv x).isOk) = false := by
        cases hA' : a.all fun x => (conv x).isOk with
        | false => rfl
        | true => exact absurd (List.all_eq_true.mp hA' x hx) hfail
      rw [maybe_array_arr_eq conv v k a ha, hA]
      simp
  · intro w hw hnotarr
    exact ⟨fun t ht => maybe_array_not_arr_ok conv v k w t hw hnotarr ht,
           fun e he => maybe_array_not_arr_err conv v k w e hw hnotarr he⟩

/-- Witness for C1: on `{"list": [1, "x", 3]}` with the integer conversion
only `1` and `3` convert, so the result is `Relaxed [1, 3]`; with the
all-accepting conversion it is `Strict`; on the non-list node `"42"` of
`{"foo": 23, "bar": "42"}` the failing conversion yields `Error`. -/
theorem maybe_array_spec_witness :
    maybe_array convPos docList (Key.str "list") = Maybe.Relaxed [1, 3] ∧
    maybe_array convAny docList (Key.str "list") = Maybe.Strict [0, 0, 0] ∧
    maybe_array convPos docBasic (Key.str "bar") =
      Maybe.Error (FromJsonError.with_message "not a positive integer node") := by
  refine ⟨?_, ?_, ?_⟩
  · exact ((maybe_array_spec convPos docList (Key.str "list")).1
      [Value.number (N.posInt 1), Value.str "x", Value.number (N.posInt 3)] rfl).2
      ⟨Value.str "x", List.mem_cons_of_mem _ (List.mem_cons_self _ _), by decide⟩
  · exact ((maybe_array_spec convAny docList (Key.str "list")).1
      [Value.number (N.posInt 1), Value.str "x", Value.number (N.posInt 3)] rfl).1
      (fun x _ => rfl)
  · exact (((maybe_array_spec convPos docBasic (Key.str "bar")).2
      (Value.str "42") rfl (fun a h => Value.noConfusion h)).2 _ rfl)

/-- C9 counterexample: on `{"k": []}` the looked-up node is a list in which
(vacuously) every element fails to convert, yet `maybe_array` returns
`Strict []`, not `Relaxed []`. -/
theorem maybe_array_empty_list_counterexample :
    docEmptyList.get (Key.str "k") = some (Value.arr []) ∧
    (∀ x ∈ ([] : List Value), ¬ (convPos x).isOk) ∧
    maybe_array convPos docEmptyList (Key.str "k") = Maybe.Strict [] ∧
    maybe_array convPos docEmptyList (Key.str "k") ≠ Maybe.Relaxed [] := by
  refine ⟨rfl, by simp, rfl, ?_⟩
  intro hc
  exact Maybe.noConfusion
    ((rfl : maybe_array convPos docEmptyList (Key.str "k") = Maybe.Strict []).symm.trans hc)

/-- C9 amended: a list node never yields `Error`, and a *nonempty* list in
which every element fails to convert yields `Relaxed` of the empty vector
(the empty list yields `Strict []` instead). -/
theorem maybe_array_list_no_error {T : Type} (conv : Value → Except FromJsonError T)
    (v : Value) (k : Key) (a : List Value) (h : v.get k = some (Value.arr a)) :
    (∀ e, maybe_array conv v k ≠ Maybe.Error e) ∧
    (a ≠ [] → (∀ x ∈ a, ¬ (conv x).isOk) →
      maybe_array conv v k = Maybe.Relaxed []) := by
  constructor
  · intro e
    rw [maybe_array_arr_eq conv v k a h]
    cases a.all (fun x => (conv x).isOk) <;> simp
  · intro hne hf
    have hA : (a.all fun x => (conv x).isOk) = false := by
      cases hA' : a.all fun x => (conv x).isOk with
      | false => rfl
      | true =>
        cases a with
        | nil => exact absurd rfl hne
        | cons y ys =>
          exact absurd (List.all_eq_true.mp hA' y (List.mem_cons_self y ys))
            (hf y (List.mem_cons_self y ys))
    have hfm : (a.filterMap fun x => (conv x).toOption) = [] := by
      refine List.filterMap_eq_nil_iff.mpr (fun x hx => ?_)
      cases hc : conv x with
      | ok t =>
        exact absurd (by simp [Except.isOk, Except.toBool, hc]) (hf x hx)
      | error e => simp [Except.toOption, hc]
    rw [maybe_array_arr_eq conv v k a h, hA, hfm]
    simp

/-- Witness for the amended C9 at `{"list": ["x"]}` with the integer
conversion: the single element fails, the result is `Relaxed []`. -/
theorem maybe_array_list_no_error_witness :
    (∀ e, maybe_array convPos docFailList (Key.str "list") ≠ Maybe.Error e) ∧
    maybe_array convPos docFailList (Key.str "list") = Maybe.Relaxed [] :=
  ⟨(maybe_array_list_no_error convPos docFailList (Key.str "list") [Value.str "x"] rfl).1,
   (maybe_array_list_no_error convPos docFailList (Key.str "list") [Value.str "x"] rfl).2
     (by simp) (by decide)⟩

/-- C5: on a string node, `maybe_bool` returns `Relaxed false` exactly when
the string is empty, equals `"0"`, or lowercases to `"false"`, and
`Relaxed true` otherwise (so `"off"` coerces to `true`). -/
theorem maybe_bool_string_coercion (v : Value) (k : Key) (s : String)
    (h : v.get k = some (Value.str s)) :
    ((s = "" ∨ s = "0" ∨ to_lowercase s = "false") →
      maybe_bool v k = some (Maybe.Relaxed false)) ∧
    (¬ (s = "" ∨ s = "0" ∨ to_lowercase s = "false") →
      maybe_bool v k = some (Maybe.Relaxed true)) := by
  constructor
  · rintro (rfl | rfl | hs)
    · simp [maybe_bool, h]
    · simp [maybe_bool, h]
    · simp [maybe_bool, h, hs]
  · intro hn
    push_neg at hn
    obtain ⟨h1, h2, h3⟩ := hn
    simp [maybe_bool, h, h1, h2, h3]

/-- Witness for C5: the documented edge case `{"flag": "off"}`, where
`maybe_bool("flag").relaxed()` is `true`. -/
theorem maybe_bool_string_coercion_witness :
    maybe_bool docFlag (Key.str "flag") = some (Maybe.Relaxed true) ∧
    (maybe_bool docFlag (Key.str "flag")).map Maybe.relaxed = some true := by
  have h := (maybe_bool_string_coercion docFlag (Key.str "flag") "off" rfl).2 (by decide)
  exact ⟨h, by rw [h]; rfl⟩

/-- C4 counterexample: in `{"x": 18446744073709551616.0}` the looked-up
node is the float `2^64`, whose truncation toward zero is `2^64`; yet
`maybe_int` returns `Relaxed (2^63 - 1)` — the Rust `as i64` cast saturates
at the `i64` range instead of truncating only. -/
theorem maybe_int_float_counterexample :
    docBigFloat.get (Key.str "x") = some (Value.number (N.float ((2 : ℚ) ^ 64))) ∧
    truncRat ((2 : ℚ) ^ 64) = 2 ^ 64 ∧
    maybe_int docBigFloat (Key.str "x") = some (Maybe.Relaxed (2 ^ 63 - 1)) ∧
    maybe_int docBigFloat (Key.str "x") ≠ some (Maybe.Relaxed (truncRat ((2 : ℚ) ^ 64))) := by
  refine ⟨rfl, by decide, by decide, ?_⟩
  intro hc
  have h2 : maybe_int docBigFloat (Key.str "x") = some (Maybe.Relaxed (2 ^ 63 - 1)) := by decide
  have : (2 ^ 63 - 1 : Int) = truncRat ((2 : ℚ) ^ 64) := by
    have := h2.symm.trans hc
    simpa using this
  rw [show truncRat ((2 : ℚ) ^ 64) = 2 ^ 64 from by decide] at this
  exact absurd this (by decide)

/-- C4 amended: on a float node, `maybe_int` returns `Relaxed` of the
number truncated toward zero and saturated to the `i64` range
`[-2^63, 2^63 - 1]` (the semantics of Rust's `f64 as i64` cast). -/
theorem maybe_int_float_saturating (v : Value) (k : Key) (q : ℚ)
    (h : v.get k = some (Value.number (N.float q))) :
    maybe_int v k = some (Maybe.Relaxed (f64_as_i64 q)) := by
  simp [maybe_int, h, N.is_i64, N.is_u64, N.is_f64, N.as_f64]

/-- Witness for the amended C4 at `{"x": 2.5}`: truncation toward zero
gives `2`. -/
theorem maybe_int_float_saturating_witness :
    maybe_int docHalf (Key.str "x") = some (Maybe.Relaxed (f64_as_i64 (mkRat 5 2))) ∧
    f64_as_i64 (mkRat 5 2) = 2 :=
  ⟨maybe_int_float_saturating docHalf (Key.str "x") (mkRat 5 2) rfl, by decide⟩

end JsonRelaxed
